import Mathlib

set_option maxHeartbeats 1000000

namespace Cmdpipe

/-- Command Descriptor, translated from the Go struct `Command` in pipe.go.
The field order and the json tags (name, params, env, out, in, error, exit)
follow the struct declaration. -/
structure Command where
  Name : String
  Params : List String
  Env : List String
  Out : String
  In : String
  Error : String
  Exit : String
deriving DecidableEq, Repr

/-- Structured wire value, modelling the self-describing JSON payload that
encoding/json produces and consumes for the descriptor (strings, arrays of
strings, and objects with named fields are the only shapes used). -/
inductive Json where
  | str : String → Json
  | arr : List Json → Json
  | obj : List (String × Json) → Json

/-- Field lookup in a decoded JSON object; later occurrences of a key
override earlier ones, as encoding/json does when decoding. -/
def jsonLookup : List (String × Json) → String → Option Json
  | [], _ => none
  | p :: rest, k =>
    match jsonLookup rest k with
    | some v => some v
    | none => if p.1 == k then some p.2 else none

/-- Decoding a JSON value into a Go string: only a JSON string succeeds. -/
def asString : Json → Option String
  | .str s => some s
  | _ => none

/-- Decoding a JSON array elementwise into Go strings; any non-string
element makes the whole decode fail, as encoding/json reports an error. -/
def strList : List Json → Option (List String)
  | [] => some []
  | j :: rest =>
    match asString j with
    | none => none
    | some s =>
      match strList rest with
      | none => none
      | some l => some (s :: l)

/-- Decoding a JSON value into a Go string slice. -/
def asStringList : Json → Option (List String)
  | .arr xs => strList xs
  | _ => none

/-- Decoding one string field of the descriptor: an absent field keeps the
zero value (the empty string), a present field must be a JSON string. -/
def getStringField (fs : List (String × Json)) (k : String) : Option String :=
  match jsonLookup fs k with
  | none => some ""
  | some v => asString v

/-- Decoding one string-slice field of the descriptor: an absent field keeps
the zero value (the empty slice), a present field must be a string array. -/
def getStringListField (fs : List (String × Json)) (k : String) :
    Option (List String) :=
  match jsonLookup fs k with
  | none => some []
  | some v => asStringList v

/-- json.Marshal applied to a Command: an object whose fields carry the json
tags of the struct, in struct order. -/
def jsonMarshalCommand (c : Command) : Json :=
  .obj [("name", .str c.Name), ("params", .arr (c.Params.map .str)),
        ("env", .arr (c.Env.map .str)), ("out", .str c.Out),
        ("in", .str c.In), ("error", .str c.Error), ("exit", .str c.Exit)]

/-- json.Unmarshal of a payload into a Command, as CommandConsumer.Consume
performs it: the payload must be an object, and each tagged field decodes at
its declared type (absent fields keep zero values). -/
def jsonUnmarshalCommand : Json → Option Command
  | .obj fs =>
    match getStringField fs "name" with
    | none => none
    | some name =>
      match getStringListField fs "params" with
      | none => none
      | some params =>
        match getStringListField fs "env" with
        | none => none
        | some env =>
          match getStringField fs "out" with
          | none => none
          | some out =>
            match getStringField fs "in" with
            | none => none
            | some inp =>
              match getStringField fs "error" with
              | none => none
              | some err =>
                match getStringField fs "exit" with
                | none => none
                | some ex => some ⟨name, params, env, out, inp, err, ex⟩
  | _ => none

/-- Decimal digit character for a value below ten, the characters strconv
uses when formatting integers. -/
def digitChar (d : Nat) : Char :=
  match d with
  | 0 => '0'
  | 1 => '1'
  | 2 => '2'
  | 3 => '3'
  | 4 => '4'
  | 5 => '5'
  | 6 => '6'
  | 7 => '7'
  | 8 => '8'
  | _ => '9'

/-- Digit test and value as strconv.Atoi performs it on each character: a
character between '0' and '9' contributes its value, anything else is a
syntax error. -/
def digitVal (ch : Char) : Option Nat :=
  if '0' ≤ ch ∧ ch ≤ '9' then some (ch.toNat - '0'.toNat) else none

/-- Little-endian decimal digit loop with explicit fuel (the fuel is a
structural-recursion bound only; it never runs out when it exceeds the
number being printed). -/
def natDigitsRevFuel : Nat → Nat → List Char
  | 0, _ => []
  | fuel + 1, n =>
    if n < 10 then [digitChar n]
    else digitChar (n % 10) :: natDigitsRevFuel fuel (n / 10)

/-- Little-endian decimal digits of a natural number, as strconv produces
them (least significant digit first; always at least one digit). -/
def natDigitsRev (n : Nat) : List Char :=
  natDigitsRevFuel (n + 1) n

/-- Decimal rendering of a natural number. -/
def natToString (n : Nat) : String :=
  String.mk (natDigitsRev n).reverse

/-- strconv.Itoa: decimal text of an integer, with a leading minus sign for
negative values. -/
def goItoa (i : Int) : String :=
  if i < 0 then "-" ++ natToString (- i).toNat else natToString i.toNat

/-- Digit-accumulation loop of strconv.Atoi: consume decimal digits left to
right, failing on the first non-digit character. -/
def parseDigits : List Char → Nat → Option Nat
  | [], acc => some acc
  | ch :: rest, acc =>
    match digitVal ch with
    | none => none
    | some d => parseDigits rest (acc * 10 + d)

/-- strconv.Atoi on the character list of the input: optional single sign,
at least one digit, all characters digits, and the value must fit a 64-bit
signed integer (otherwise strconv reports a range error). -/
def goAtoiChars : List Char → Option Int
  | [] => none
  | ch :: rest =>
    match if ch == '-' || ch == '+' then rest else ch :: rest with
    | [] => none
    | d :: ds =>
      match parseDigits (d :: ds) 0 with
      | none => none
      | some n =>
        if ch == '-' then
          if n ≤ 2 ^ 63 then some (- (n : Int)) else none
        else
          if n ≤ 2 ^ 63 - 1 then some (n : Int) else none

/-- strconv.Atoi, the parser the Dispatcher applies to the bytes read from
the exit channel. -/
def goAtoi (s : String) : Option Int :=
  goAtoiChars s.data

/-- getTemp from pipe.go: the rendezvous base directory, the value of
CMDPIPE_TMP_DIR or /tmp when that variable is empty or absent (os.Getenv
returns the empty string in both cases, modelled by the empty string). -/
def getTemp (tmpEnv : String) : String :=
  if tmpEnv == "" then "/tmp" else tmpEnv

/-- path.Join for a nonempty, already-clean directory and a relative name,
the only shape the program joins. -/
def pathJoin (a b : String) : String :=
  a ++ "/" ++ b

/-- inTemp from pipe.go: a name joined under the rendezvous base
directory. -/
def inTemp (tmpEnv rel : String) : String :=
  pathJoin (getTemp tmpEnv) rel

/-- getQueueName from pipe.go. -/
def getQueueName (commandName : String) : String :=
  "command:" ++ commandName

/-- genCommandPipeSocket from pipe.go builds the rendezvous name
cmdpipe-(random suffix)-(pipe type). The suffix argument stands for the
result of RandStringBytesMaskImprSrc 6, which is repository code not under
src/; modelled from the spec as an arbitrary random 6-character suffix, so
theorems take the suffix as a parameter (with its length as a hypothesis
where the length matters). -/
def genCommandPipeSocket (suffix pipeType : String) : String :=
  "cmdpipe-" ++ suffix ++ "-" ++ pipeType

/-- Splitting loop of strings.Split with the one-character separator used
by PropogateEnvironment: cut the character list at every semicolon, keeping
empty fields, the accumulator holding the current field reversed. -/
def splitSemiChars : List Char → List Char → List String
  | [], acc => [String.mk acc.reverse]
  | c :: rest, acc =>
    if c == ';' then String.mk acc.reverse :: splitSemiChars rest []
    else splitSemiChars rest (c :: acc)

/-- strings.Split of a string on the semicolon separator. -/
def goSplitSemi (s : String) : List String :=
  splitSemiChars s.data []

/-- PropogateEnvironment from pipe.go: the value of CMDPIPE_ENV split on
semicolons, or the empty list when the variable is empty or absent. -/
def PropogateEnvironment (cmdpipeEnv : String) : List String :=
  if cmdpipeEnv == "" then [] else goSplitSemi cmdpipeEnv

/-- Outcome of cmd.Run() in CommandConsumer.Consume, the only facts the
surrounding code inspects: a nil error; an exec.ExitError whose Sys() is a
syscall.WaitStatus carrying ExitStatus(), or one where that cast fails; or
any other (non-exit) error such as a process that could not be started. -/
inductive RunResult where
  | ok : RunResult
  | exitErr : Option Int → RunResult
  | otherErr : RunResult
deriving DecidableEq, Repr

/-- Executor-side environment and world: its CMDPIPE_TMP_DIR value, its
inherited environment os.Environ(), which unix-socket paths net.Dial can
reach, and how the spawned program terminates. -/
structure ConsumeWorld where
  tmpDir : String
  environ : List String
  dialOk : String → Bool
  runResult : RunResult

/-- The four connections dialAll hands back; a nil net.Conn is `none`, a
connected one records the path it was dialed on. -/
structure Conns where
  out : Option String
  inp : Option String
  err : Option String
  exit : Option String
deriving DecidableEq, Repr

/-- dialAll from pipe.go: dial the four descriptor addresses joined under
this process's temp directory, in the fixed order out, in, error, exit,
returning early (leaving the rest nil) at the first failure. -/
def dialAll (cw : ConsumeWorld) (command : Command) : Conns :=
  if cw.dialOk (inTemp cw.tmpDir command.Out) then
    if cw.dialOk (inTemp cw.tmpDir command.In) then
      if cw.dialOk (inTemp cw.tmpDir command.Error) then
        if cw.dialOk (inTemp cw.tmpDir command.Exit) then
          ⟨some (inTemp cw.tmpDir command.Out), some (inTemp cw.tmpDir command.In),
           some (inTemp cw.tmpDir command.Error), some (inTemp cw.tmpDir command.Exit)⟩
        else
          ⟨some (inTemp cw.tmpDir command.Out), some (inTemp cw.tmpDir command.In),
           some (inTemp cw.tmpDir command.Error), none⟩
      else
        ⟨some (inTemp cw.tmpDir command.Out), some (inTemp cw.tmpDir command.In),
         none, none⟩
    else
      ⟨some (inTemp cw.tmpDir command.Out), none, none, none⟩
  else
    ⟨none, none, none, none⟩

/-- Observable outcome of one CommandConsumer.Consume call: how often the
delivery was rejected, which program start was issued (program, arguments,
environment), the bytes written to the exit connection, the connections
whose deferred Close ran on a non-nil value, and whether the call panicked
(calling a method on a nil net.Conn). -/
structure ConsumeResult where
  conns : Conns
  rejected : Nat
  started : Option (String × List String × List String)
  exitBytes : Option String
  closedPaths : List String
  panicked : Bool
deriving DecidableEq, Repr

/-- The four deferred Close calls of Consume, which run in reverse
registration order (exit, error, in, out) even while a panic is
propagating: the non-nil connections get closed, and any nil connection
turns the deferred call into a nil-method panic. -/
def closeDeferred (conns : Conns) : List String × Bool :=
  ([conns.exit, conns.err, conns.inp, conns.out].filterMap id,
   [conns.exit, conns.err, conns.inp, conns.out].any Option.isNone)

/-- CommandConsumer.Consume from pipe.go: unmarshal the payload (dropping
the delivery on failure), dial all four addresses, reject a descriptor
whose name is not the allowed one, otherwise run the allowed program with
the descriptor's arguments, the inherited environment plus the descriptor's
env appended, and its stdio wired to the connections, then write the
decimal exit status to the exit connection. -/
def Consume (allowed : String) (cw : ConsumeWorld) (payload : Json) :
    ConsumeResult :=
  match jsonUnmarshalCommand payload with
  | none => ⟨⟨none, none, none, none⟩, 0, none, none, [], false⟩
  | some command =>
    let conns := dialAll cw command
    let closed := closeDeferred conns
    if command.Name ≠ allowed then
      ⟨conns, 1, none, none, closed.1, closed.2⟩
    else
      let exitCode : Int :=
        match cw.runResult with
        | .ok => 0
        | .exitErr (some code) => code
        | .exitErr none => -1
        | .otherErr => -1
      let started := some (allowed, command.Params, cw.environ ++ command.Env)
      match conns.exit with
      | none => ⟨conns, 0, started, none, closed.1, true⟩
      | some _ => ⟨conns, 0, started, some (goItoa exitCode), closed.1, closed.2⟩

/-- How one of the Dispatcher's lightweight tasks ends. -/
inductive TaskEnd (α : Type) where
  | blocked : TaskEnd α
  | panicked : TaskEnd α
  | finished : α → TaskEnd α
deriving DecidableEq, Repr

/-- The stdout and stderr relay goroutines of Send (they share their body):
`none` means Accept never returns (no peer ever dials, the task blocks
forever); `some none` means Accept returned an error and a nil connection,
which is logged and then io.Copy reads from the nil connection and panics;
`some (some bs)` means a peer connected, delivered bs, and closed, after
which the task copies the bytes to the local stream and finishes. -/
def copyRelayRun : Option (Option (List Char)) → TaskEnd (List Char)
  | none => .blocked
  | some none => .panicked
  | some (some bs) => .finished bs

/-- The stdin relay goroutine of Send: on a nil connection from a failed
Accept it panics (io.Copy to the nil connection when stdin is not a
terminal, or Close of the nil connection when it is); on a connection it
sends nothing when local stdin is a terminal and the full stdin bytes
otherwise, then closes. -/
def inRelayRun (accept : Option (Option Unit)) (stdinTty : Bool)
    (stdin : List Char) : TaskEnd (List Char) :=
  match accept with
  | none => .blocked
  | some none => .panicked
  | some (some _) => .finished (if stdinTty then [] else stdin)

/-- How the exit-status goroutine of Send ends. -/
inductive ExitTaskEnd where
  | blocked : ExitTaskEnd
  | panicked : ExitTaskEnd
  | delivered : Int → ExitTaskEnd
deriving DecidableEq, Repr

/-- The exit-status goroutine of Send: `none` means Accept never returns;
`some none` means Accept failed with a nil connection, so ReadAll of the
nil connection panics; `some (some s)` means a peer connected, wrote s and
closed, after which the bytes parse with strconv.Atoi, a parse failure
being replaced by -1, and the result is sent on the exit channel. -/
def exitTaskRun : Option (Option String) → ExitTaskEnd
  | none => .blocked
  | some none => .panicked
  | some (some s) =>
    .delivered (match goAtoi s with
      | some code => code
      | none => -1)

/-- What the Dispatcher's exit-status goroutine observes of a Consume run:
if the Executor never dialed the exit address, no connection ever arrives;
otherwise a connection arrives and delivers exactly the bytes Consume wrote
before the connection was closed (by the deferred Close, or by the
operating system when the Executor process dies in a panic). -/
def exitWire (r : ConsumeResult) : Option (Option String) :=
  match r.conns.exit with
  | none => none
  | some _ => some (some (r.exitBytes.getD ""))

/-- One Dispatcher/Executor exchange on the exit channel: the value the
Dispatcher's exit-status task produces when the published payload is
consumed by an Executor allowing the given name. -/
def exchange (allowed : String) (cw : ConsumeWorld) (payload : Json) :
    ExitTaskEnd :=
  exitTaskRun (exitWire (Consume allowed cw payload))

/-- Externally observable action of Send's main control flow. -/
inductive Ev where
  | connOpened : String → Ev
  | listened : String → Ev
  | builtDescriptor : Command → Ev
  | published : Command → Ev
  | panicked : Ev
  | removed : String → Ev
  | connClosed : Ev
deriving DecidableEq, Repr

/-- How Send's main control flow ends before its blocking waits: an early
return with a code, a panic from a failed net.Listen, or a published
descriptor followed by waiting on the relay tasks and the exit value. -/
inductive SendOutcome where
  | earlyReturn : Int → SendOutcome
  | panicked : SendOutcome
  | publishedAwait : Command → SendOutcome
deriving DecidableEq, Repr

/-- Dispatcher-side world: os.Args, the CMDPIPE_TMP_DIR and CMDPIPE_ENV
values (empty string when absent), the four random suffixes produced by the
spec-modelled random generator, and which paths net.Listen can bind. -/
structure SendWorld where
  args : List String
  tmpDir : String
  envList : String
  sufOut : String
  sufErr : String
  sufIn : String
  sufExit : String
  listenOk : String → Bool

/-- The four rendezvous paths a Send world listens on, in creation order
(out, err, in, exit). -/
def sendSocketPaths (w : SendWorld) : List String :=
  [inTemp w.tmpDir (genCommandPipeSocket w.sufOut "out"),
   inTemp w.tmpDir (genCommandPipeSocket w.sufErr "err"),
   inTemp w.tmpDir (genCommandPipeSocket w.sufIn "in"),
   inTemp w.tmpDir (genCommandPipeSocket w.sufExit "exit")]

/-- The Command Descriptor Send constructs and publishes: the command name
from os.Args with the trailing arguments, the propagated environment, and
the four rendezvous names (not their joined paths). -/
def sendDescriptor (w : SendWorld) : Command :=
  ⟨w.args.getD 1 "", w.args.drop 2, PropogateEnvironment w.envList,
   genCommandPipeSocket w.sufOut "out", genCommandPipeSocket w.sufIn "in",
   genCommandPipeSocket w.sufErr "err", genCommandPipeSocket w.sufExit "exit"⟩

/-- The main control flow of Send from pipe.go: the outcome, the ordered
events it performs before blocking (broker connection, the four listens in
order out, err, in, exit, descriptor construction, publication), and the
deferred events that run when the function finishes (the four os.Remove
calls in reverse registration order, whose errors are discarded, then the
broker connection close). A failed net.Listen panics, running exactly the
deferred calls registered so far. -/
def sendMain (w : SendWorld) : SendOutcome × List Ev × List Ev :=
  if w.args.length ≤ 1 then (.earlyReturn 1, [], [])
  else
    let redis := pathJoin (getTemp w.tmpDir) "redis.sock"
    let outSock := genCommandPipeSocket w.sufOut "out"
    let errSock := genCommandPipeSocket w.sufErr "err"
    let inSock := genCommandPipeSocket w.sufIn "in"
    let exitSock := genCommandPipeSocket w.sufExit "exit"
    let pOut := inTemp w.tmpDir outSock
    let pErr := inTemp w.tmpDir errSock
    let pIn := inTemp w.tmpDir inSock
    let pExit := inTemp w.tmpDir exitSock
    if w.listenOk pOut then
      if w.listenOk pErr then
        if w.listenOk pIn then
          if w.listenOk pExit then
            let c : Command :=
              ⟨w.args.getD 1 "", w.args.drop 2, PropogateEnvironment w.envList,
               outSock, inSock, errSock, exitSock⟩
            (.publishedAwait c,
             [.connOpened redis, .listened pOut, .listened pErr, .listened pIn,
              .listened pExit, .builtDescriptor c, .published c],
             [.removed pExit, .removed pIn, .removed pErr, .removed pOut,
              .connClosed])
          else
            (.panicked,
             [.connOpened redis, .listened pOut, .listened pErr, .listened pIn,
              .panicked],
             [.removed pExit, .removed pIn, .removed pErr, .removed pOut,
              .connClosed])
        else
          (.panicked,
           [.connOpened redis, .listened pOut, .listened pErr, .panicked],
           [.removed pIn, .removed pErr, .removed pOut, .connClosed])
      else
        (.panicked,
         [.connOpened redis, .listened pOut, .panicked],
         [.removed pErr, .removed pOut, .connClosed])
    else
      (.panicked,
       [.connOpened redis, .panicked],
       [.removed pOut, .connClosed])

/-- The ordered events Send performs before its blocking waits. -/
def sendEvents (w : SendWorld) : List Ev :=
  (sendMain w).2.1

/-- The deferred cleanup events of Send. -/
def sendDeferred (w : SendWorld) : List Ev :=
  (sendMain w).2.2

/-- Whether a relay task finished normally. -/
def TaskEnd.isFinished : TaskEnd α → Bool
  | .finished _ => true
  | _ => false

/-- Whether the exit task delivered a value. -/
def ExitTaskEnd.isDelivered : ExitTaskEnd → Bool
  | .delivered _ => true
  | _ => false

/-- The full event list of one Send run including its deferred cleanup, or
`none` when the deferred calls of Send's goroutine never execute: after
publication Send blocks in wg.Wait and on the exit channel, so its deferred
os.Remove calls run only if the three relay tasks finish and the exit task
delivers a value; a panic in any relay goroutine crashes the process and a
blocked task blocks Send forever, and in both cases the deferred calls are
skipped. A panic in Send's own goroutine (a failed listen) does run the
deferred calls registered so far. -/
def sendCleanup (w : SendWorld) (aOut aErr : Option (Option (List Char)))
    (aIn : Option (Option Unit)) (stdinTty : Bool) (stdin : List Char)
    (wire : Option (Option String)) : Option (List Ev) :=
  match sendMain w with
  | (.earlyReturn _, main, defd) => some (main ++ defd)
  | (.panicked, main, defd) => some (main ++ defd)
  | (.publishedAwait _, main, defd) =>
    if (copyRelayRun aOut).isFinished && (copyRelayRun aErr).isFinished
        && (inRelayRun aIn stdinTty stdin).isFinished
        && (exitTaskRun wire).isDelivered then
      some (main ++ defd)
    else
      none

/-- Filesystem contents evolved by one Send event: a listen creates its
rendezvous point, a remove deletes it (silently succeeding when the entry
is absent, since the deferred os.Remove discards its error). -/
def applyEv (fs : List String) : Ev → List String
  | .listened p => p :: fs
  | .removed p => fs.filter (fun q => q ≠ p)
  | _ => fs

/-- Filesystem contents after a list of Send events. -/
def applyEvs (fs : List String) (evs : List Ev) : List String :=
  evs.foldl applyEv fs

/-- Exit-status mapping exactly as the spec words it: 0 for a normal zero
exit, the program's exit code for a normal non-zero exit, and -1 when the
process could not be started or its termination status could not be
determined. -/
def specExitStatus : RunResult → Int
  | .ok => 0
  | .exitErr (some code) => code
  | .exitErr none => -1
  | .otherErr => -1

/-- Whether the exit code the host reports fits a 64-bit signed integer,
which every syscall.WaitStatus exit status does. -/
def runStatusInRange : RunResult → Prop
  | .exitErr (some code) => - (2 ^ 63 : Int) ≤ code ∧ code ≤ 2 ^ 63 - 1
  | _ => True

/-- Whether the first character list leads (is an initial segment of) the
second. -/
def charsLeading : List Char → List Char → Bool
  | [], _ => true
  | _ :: _, [] => false
  | a :: as, b :: bs => a == b && charsLeading as bs

/-- Whether an environment entry is an assignment to the given key. -/
def envEntryHasKey (key entry : String) : Bool :=
  charsLeading (key ++ "=").data entry.data

/-- Value bound to a key by a list of KEY=VALUE entries under the standard
last-wins environment semantics the spec appeals to. -/
def envValue (entries : List String) (key : String) : Option String :=
  (entries.reverse.find? (fun s => envEntryHasKey key s)).map
    (fun s => String.mk (s.data.drop (key ++ "=").data.length))

end Cmdpipe

namespace Cmdpipe

theorem strList_map_str (xs : List String) :
    strList (xs.map Json.str) = some xs := by
  induction xs with
  | nil => rfl
  | cons x xs ih => simp [strList, asString, List.map, ih]

theorem jsonRoundTrip (c : Command) :
    jsonUnmarshalCommand (jsonMarshalCommand c) = some c := by
  obtain ⟨nm, ps, ev, o, i, er, ex⟩ := c
  simp [jsonMarshalCommand, jsonUnmarshalCommand, jsonLookup, getStringField,
    getStringListField, asString, asStringList, strList_map_str]

theorem digitVal_digitChar (d : Nat) (h : d < 10) :
    digitVal (digitChar d) = some d := by
  interval_cases d <;> rfl

theorem digitChar_ne_minus (d : Nat) : (digitChar d == '-') = false := by
  rcases d with _ | _ | _ | _ | _ | _ | _ | _ | _ | d <;> rfl

theorem digitChar_ne_plus (d : Nat) : (digitChar d == '+') = false := by
  rcases d with _ | _ | _ | _ | _ | _ | _ | _ | _ | d <;> rfl

theorem natDigitsRev_digits (n : Nat) :
    ∀ ch ∈ natDigitsRev n, ∃ d, d < 10 ∧ ch = digitChar d := by
  suffices hs : ∀ fuel n, n < fuel →
      ∀ ch ∈ natDigitsRevFuel fuel n, ∃ d, d < 10 ∧ ch = digitChar d by
    exact hs (n + 1) n (by omega)
  intro fuel
  induction fuel with
  | zero => intro n hn; exact absurd hn (Nat.not_lt_zero n)
  | succ f ih =>
    intro n hn ch hch
    by_cases h10 : n < 10
    · simp only [natDigitsRevFuel, if_pos h10, List.mem_singleton] at hch
      exact ⟨n, h10, hch⟩
    · simp only [natDigitsRevFuel, if_neg h10, List.mem_cons] at hch
      rcases hch with rfl | hch
      · exact ⟨n % 10, Nat.mod_lt _ (by omega), rfl⟩
      · exact ih (n / 10) (by omega) ch hch

theorem natDigitsRev_ne_nil (n : Nat) : natDigitsRev n ≠ [] := by
  show natDigitsRevFuel (n + 1) n ≠ []
  simp only [natDigitsRevFuel]
  split <;> simp

theorem foldl_natDigitsRev (n : Nat) :
    ∀ acc, ((natDigitsRev n).reverse).foldl
        (fun a ch => a * 10 + ((digitVal ch).getD 0)) acc
      = acc * 10 ^ (natDigitsRev n).length + n := by
  suffices hs : ∀ fuel n, n < fuel → ∀ acc,
      ((natDigitsRevFuel fuel n).reverse).foldl
          (fun a ch => a * 10 + ((digitVal ch).getD 0)) acc
        = acc * 10 ^ (natDigitsRevFuel fuel n).length + n by
    exact hs (n + 1) n (by omega)
  intro fuel
  induction fuel with
  | zero => intro n hn; exact absurd hn (Nat.not_lt_zero n)
  | succ f ih =>
    intro n hn acc
    by_cases h10 : n < 10
    · simp [natDigitsRevFuel, h10, digitVal_digitChar n h10]
    · simp only [natDigitsRevFuel, if_neg h10]
      rw [List.reverse_cons, List.foldl_append]
      rw [ih (n / 10) (by omega) acc]
      simp only [List.foldl_cons, List.foldl_nil,
        digitVal_digitChar (n % 10) (Nat.mod_lt _ (by omega)), Option.getD_some,
        List.length_cons]
      rw [pow_succ]
      have hm : 10 * (n / 10) + n % 10 = n := Nat.div_add_mod n 10
      calc (acc * 10 ^ (natDigitsRevFuel f (n / 10)).length + n / 10) * 10 + n % 10
          = acc * (10 ^ (natDigitsRevFuel f (n / 10)).length * 10)
            + (10 * (n / 10) + n % 10) := by ring
        _ = acc * (10 ^ (natDigitsRevFuel f (n / 10)).length * 10) + n := by
            rw [hm]

theorem parseDigits_digits (l : List Char) :
    ∀ acc, (∀ ch ∈ l, ∃ d, d < 10 ∧ ch = digitChar d) →
      parseDigits l acc =
        some (l.foldl (fun a ch => a * 10 + ((digitVal ch).getD 0)) acc) := by
  induction l with
  | nil => intro acc _; rfl
  | cons ch rest ih =>
    intro acc h
    obtain ⟨d, hd, rfl⟩ := h ch (by simp)
    simp only [parseDigits, digitVal_digitChar d hd, List.foldl_cons,
      Option.getD_some]
    exact ih _ (fun c hc => h c (by simp [hc]))

theorem parseDigits_natDigitsRev (n : Nat) :
    parseDigits ((natDigitsRev n).reverse) 0 = some n := by
  rw [parseDigits_digits _ 0
    (fun c hc => natDigitsRev_digits n c (List.mem_reverse.mp hc))]
  rw [foldl_natDigitsRev n 0]
  simp

theorem goAtoi_natToString (n : Nat) (h : n ≤ 2 ^ 63 - 1) :
    goAtoi (natToString n) = some (n : Int) := by
  obtain ⟨ch, rest, hrev⟩ : ∃ ch rest, (natDigitsRev n).reverse = ch :: rest := by
    cases hr : (natDigitsRev n).reverse with
    | nil =>
      have : natDigitsRev n = [] := by simpa using congrArg List.reverse hr
      exact absurd this (natDigitsRev_ne_nil n)
    | cons a l => exact ⟨a, l, rfl⟩
  obtain ⟨d, hd, hchd⟩ : ∃ d, d < 10 ∧ ch = digitChar d := by
    apply natDigitsRev_digits n
    rw [← List.mem_reverse, hrev]
    simp
  have hparse := parseDigits_natDigitsRev n
  rw [hrev] at hparse
  show goAtoiChars (natToString n).data = some (n : Int)
  have hdata : (natToString n).data = (natDigitsRev n).reverse := rfl
  rw [hdata, hrev]
  subst hchd
  have hp : (2 : Nat) ^ 63 = 9223372036854775808 := by norm_num
  simp [goAtoiChars, digitChar_ne_minus, digitChar_ne_plus, hparse]
  omega

theorem goAtoiChars_neg (n : Nat) (h : n ≤ 2 ^ 63) :
    goAtoiChars ('-' :: (natDigitsRev n).reverse) = some (- (n : Int)) := by
  obtain ⟨ch, rest, hrev⟩ : ∃ ch rest, (natDigitsRev n).reverse = ch :: rest := by
    cases hr : (natDigitsRev n).reverse with
    | nil =>
      have : natDigitsRev n = [] := by simpa using congrArg List.reverse hr
      exact absurd this (natDigitsRev_ne_nil n)
    | cons a l => exact ⟨a, l, rfl⟩
  have hparse := parseDigits_natDigitsRev n
  rw [hrev] at hparse
  rw [hrev]
  have hp : (2 : Nat) ^ 63 = 9223372036854775808 := by norm_num
  simp [goAtoiChars, hparse]
  omega

theorem goAtoi_goItoa (i : Int) (hlo : - (2 ^ 63 : Int) ≤ i)
    (hhi : i ≤ 2 ^ 63 - 1) :
    goAtoi (goItoa i) = some i := by
  have hp : (2 : Nat) ^ 63 = 9223372036854775808 := by norm_num
  have hq : (2 : Int) ^ 63 = 9223372036854775808 := by norm_num
  by_cases hneg : i < 0
  · have h1 : goItoa i = "-" ++ natToString (- i).toNat := by
      simp [goItoa, hneg]
    rw [h1]
    show goAtoiChars ("-" ++ natToString (- i).toNat).data = some i
    have hdata : ("-" ++ natToString (- i).toNat).data
        = '-' :: (natDigitsRev (- i).toNat).reverse := by
      rw [String.data_append]
      rfl
    rw [hdata, goAtoiChars_neg]
    · simp only [Option.some.injEq]
      omega
    · omega
  · have h1 : goItoa i = natToString i.toNat := by
      simp [goItoa, hneg]
    rw [h1, goAtoi_natToString]
    · simp only [Option.some.injEq]
      omega
    · omega

theorem dialAll_all_ok (cw : ConsumeWorld) (c : Command)
    (hdial : ∀ p, cw.dialOk p = true) :
    dialAll cw c =
      ⟨some (inTemp cw.tmpDir c.Out), some (inTemp cw.tmpDir c.In),
       some (inTemp cw.tmpDir c.Error), some (inTemp cw.tmpDir c.Exit)⟩ := by
  simp [dialAll, hdial]

theorem consume_mismatch (allowed : String) (cw : ConsumeWorld)
    (payload : Json) (c : Command)
    (hun : jsonUnmarshalCommand payload = some c)
    (hname : c.Name ≠ allowed) :
    Consume allowed cw payload =
      ⟨dialAll cw c, 1, none, none, (closeDeferred (dialAll cw c)).1,
       (closeDeferred (dialAll cw c)).2⟩ := by
  simp [Consume, hun, hname]

theorem consume_match (allowed : String) (cw : ConsumeWorld)
    (payload : Json) (c : Command)
    (hun : jsonUnmarshalCommand payload = some c)
    (hname : c.Name = allowed)
    (hdial : ∀ p, cw.dialOk p = true) :
    Consume allowed cw payload =
      ⟨dialAll cw c, 0, some (allowed, c.Params, cw.environ ++ c.Env),
       some (goItoa (specExitStatus cw.runResult)),
       (closeDeferred (dialAll cw c)).1, false⟩ := by
  have hda := dialAll_all_ok cw c hdial
  cases hr : cw.runResult <;>
    simp [Consume, hun, hname, hda, closeDeferred, specExitStatus, hr]

theorem specExitStatus_range (r : RunResult) (hr : runStatusInRange r) :
    - (2 ^ 63 : Int) ≤ specExitStatus r ∧ specExitStatus r ≤ 2 ^ 63 - 1 := by
  have hq : (2 : Int) ^ 63 = 9223372036854775808 := by norm_num
  cases r with
  | ok => simp only [specExitStatus]; omega
  | otherErr => simp only [specExitStatus]; omega
  | exitErr code =>
    cases code with
    | none => simp only [specExitStatus]; omega
    | some v =>
      simp only [runStatusInRange] at hr
      simpa [specExitStatus] using hr

/-- Claim C1: for every command name equal to the Executor's allowed name
and every argument list, one Dispatcher/Executor exchange delivers to Send
the exact exit status of the executed program: 0 for a normal zero exit,
the program's exit code for a normal non-zero exit, and -1 when the process
could not be started or its status could not be determined. -/
theorem exchange_returns_exact_exit_status (allowed : String) (c : Command)
    (cw : ConsumeWorld) (hname : c.Name = allowed)
    (hdial : ∀ p, cw.dialOk p = true)
    (hrange : runStatusInRange cw.runResult) :
    exchange allowed cw (jsonMarshalCommand c) =
      .delivered (specExitStatus cw.runResult) := by
  rw [exchange, consume_match allowed cw _ c (jsonRoundTrip c) hname hdial,
    dialAll_all_ok cw c hdial]
  obtain ⟨hlo, hhi⟩ := specExitStatus_range cw.runResult hrange
  simp [exitWire, exitTaskRun, goAtoi_goItoa _ hlo hhi]

/-- Witness for C1 at a concrete exchange: allowed name echo, a program
exiting with code 7, every dial succeeding. -/
theorem exchange_returns_exact_exit_status_witness :
    exchange "echo"
        ⟨"", [], fun _ => true, .exitErr (some 7)⟩
        (jsonMarshalCommand ⟨"echo", ["hi"], [], "o", "i", "e", "x"⟩) =
      .delivered (specExitStatus (.exitErr (some 7))) :=
  exchange_returns_exact_exit_status "echo"
    ⟨"echo", ["hi"], [], "o", "i", "e", "x"⟩
    ⟨"", [], fun _ => true, .exitErr (some 7)⟩
    rfl (fun _ => rfl)
    (by constructor <;> decide)

theorem sendMain_success (w : SendWorld) (hargs : 2 ≤ w.args.length)
    (hlisten : ∀ q, w.listenOk q = true) :
    sendMain w =
      (.publishedAwait (sendDescriptor w),
       [.connOpened (pathJoin (getTemp w.tmpDir) "redis.sock"),
        .listened (inTemp w.tmpDir (genCommandPipeSocket w.sufOut "out")),
        .listened (inTemp w.tmpDir (genCommandPipeSocket w.sufErr "err")),
        .listened (inTemp w.tmpDir (genCommandPipeSocket w.sufIn "in")),
        .listened (inTemp w.tmpDir (genCommandPipeSocket w.sufExit "exit")),
        .builtDescriptor (sendDescriptor w), .published (sendDescriptor w)],
       [.removed (inTemp w.tmpDir (genCommandPipeSocket w.sufExit "exit")),
        .removed (inTemp w.tmpDir (genCommandPipeSocket w.sufIn "in")),
        .removed (inTemp w.tmpDir (genCommandPipeSocket w.sufErr "err")),
        .removed (inTemp w.tmpDir (genCommandPipeSocket w.sufOut "out")),
        .connClosed]) := by
  have h1 : ¬ w.args.length ≤ 1 := by omega
  simp [sendMain, h1, hlisten, sendDescriptor]

/-- Claim C6: serializing a Command Descriptor and then decoding the result
yields a descriptor equal field-for-field to the original, for any
combination of empty and non-empty params and env. -/
theorem descriptor_serialization_roundtrip (c : Command) :
    jsonUnmarshalCommand (jsonMarshalCommand c) = some c :=
  jsonRoundTrip c

/-- Counterexample to claim C3 as stated: with Dispatcher name foo and an
Executor allowing only bar, the Dispatcher's exit-status task does receive
a value, namely -1. The Executor dials the exit rendezvous point before the
name check and closes it on rejection, so the exit task accepts a
connection, reads an empty payload, fails to parse it, and substitutes
-1. -/
theorem mismatch_exit_task_receives_value :
    exchange "bar" ⟨"", [], fun _ => true, .ok⟩
        (jsonMarshalCommand ⟨"foo", [], [], "o", "i", "e", "x"⟩)
      = .delivered (-1) ∧
    exchange "bar" ⟨"", [], fun _ => true, .ok⟩
        (jsonMarshalCommand ⟨"foo", [], [], "o", "i", "e", "x"⟩)
      ≠ .blocked := by
  constructor <;> decide

/-- Claim C3 (amended): when the Dispatcher publishes a descriptor whose
name differs from the Executor's allowed name, the delivery is rejected, no
process is spawned, and the Dispatcher's exit-status task receives -1: the
Executor dials and then closes the exit channel, and the empty payload
fails to parse, so -1 is substituted. -/
theorem mismatch_rejected_and_exit_task_gets_minus_one (allowed : String)
    (cw : ConsumeWorld) (payload : Json) (c : Command)
    (hun : jsonUnmarshalCommand payload = some c)
    (hname : c.Name ≠ allowed)
    (hdial : ∀ p, cw.dialOk p = true) :
    (Consume allowed cw payload).rejected = 1 ∧
    (Consume allowed cw payload).started = none ∧
    exchange allowed cw payload = .delivered (-1) := by
  have hc := consume_mismatch allowed cw payload c hun hname
  refine ⟨by rw [hc], by rw [hc], ?_⟩
  rw [exchange, hc, dialAll_all_ok cw c hdial]
  simp [exitWire, exitTaskRun]
  decide

/-- Witness for C3 (amended) at a concrete mismatch: name foo with one
argument against allowed name bar. -/
theorem mismatch_rejected_and_exit_task_gets_minus_one_witness :
    (Consume "bar" ⟨"", [], fun _ => true, .ok⟩
        (jsonMarshalCommand ⟨"foo", ["a"], [], "o2", "i2", "e2", "x2"⟩)).rejected
      = 1 ∧
    (Consume "bar" ⟨"", [], fun _ => true, .ok⟩
        (jsonMarshalCommand ⟨"foo", ["a"], [], "o2", "i2", "e2", "x2"⟩)).started
      = none ∧
    exchange "bar" ⟨"", [], fun _ => true, .ok⟩
        (jsonMarshalCommand ⟨"foo", ["a"], [], "o2", "i2", "e2", "x2"⟩)
      = .delivered (-1) :=
  mismatch_rejected_and_exit_task_gets_minus_one "bar"
    ⟨"", [], fun _ => true, .ok⟩
    (jsonMarshalCommand ⟨"foo", ["a"], [], "o2", "i2", "e2", "x2"⟩)
    ⟨"foo", ["a"], [], "o2", "i2", "e2", "x2"⟩
    (jsonRoundTrip _) (by decide) (fun _ => rfl)

/-- Claim C4: for every delivered descriptor whose name differs from the
Executor's configured allowed name, no program is ever started, the
delivery is rejected exactly once, nothing is written to the exit channel,
and every successfully dialed channel is closed without having been
used. -/
theorem mismatch_never_starts_program (allowed : String) (cw : ConsumeWorld)
    (payload : Json) (c : Command) (p : String)
    (hun : jsonUnmarshalCommand payload = some c)
    (hname : c.Name ≠ allowed)
    (hp : (dialAll cw c).out = some p ∨ (dialAll cw c).inp = some p ∨
          (dialAll cw c).err = some p ∨ (dialAll cw c).exit = some p) :
    (Consume allowed cw payload).started = none ∧
    (Consume allowed cw payload).rejected = 1 ∧
    (Consume allowed cw payload).exitBytes = none ∧
    p ∈ (Consume allowed cw payload).closedPaths := by
  have hc := consume_mismatch allowed cw payload c hun hname
  rw [hc]
  refine ⟨rfl, rfl, rfl, ?_⟩
  simp only [closeDeferred, List.mem_filterMap]
  rcases hp with h | h | h | h <;>
    exact ⟨some p, by simp [h], rfl⟩

/-- Witness for C4: a descriptor named foo delivered to an Executor
allowing only bar, with every dial succeeding, the out connection path
being the out address joined under /tmp. -/
theorem mismatch_never_starts_program_witness :
    (Consume "bar" ⟨"", [], fun _ => true, .ok⟩
        (jsonMarshalCommand ⟨"foo", [], [], "o3", "i3", "e3", "x3"⟩)).started
      = none ∧
    (Consume "bar" ⟨"", [], fun _ => true, .ok⟩
        (jsonMarshalCommand ⟨"foo", [], [], "o3", "i3", "e3", "x3"⟩)).rejected
      = 1 ∧
    (Consume "bar" ⟨"", [], fun _ => true, .ok⟩
        (jsonMarshalCommand ⟨"foo", [], [], "o3", "i3", "e3", "x3"⟩)).exitBytes
      = none ∧
    "/tmp/o3" ∈ (Consume "bar" ⟨"", [], fun _ => true, .ok⟩
        (jsonMarshalCommand ⟨"foo", [], [], "o3", "i3", "e3", "x3"⟩)).closedPaths :=
  mismatch_never_starts_program "bar" ⟨"", [], fun _ => true, .ok⟩
    (jsonMarshalCommand ⟨"foo", [], [], "o3", "i3", "e3", "x3"⟩)
    ⟨"foo", [], [], "o3", "i3", "e3", "x3"⟩ "/tmp/o3"
    (jsonRoundTrip _) (by decide) (Or.inl (by decide))

/-- Claim C10: when Send is invoked with no command-name argument it
returns 1 immediately, with an empty event trace: no broker connection is
opened, no rendezvous point is created, and nothing is published. -/
theorem send_without_argument_returns_one (w : SendWorld)
    (h : w.args.length ≤ 1) :
    sendMain w = (.earlyReturn 1, [], []) := by
  simp [sendMain, h]

/-- Witness for C10: Send invoked with only the program name in
os.Args. -/
theorem send_without_argument_returns_one_witness :
    sendMain ⟨["cmdpipe"], "", "", "aa", "bb", "cc", "dd", fun _ => true⟩
      = (.earlyReturn 1, [], []) :=
  send_without_argument_returns_one
    ⟨["cmdpipe"], "", "", "aa", "bb", "cc", "dd", fun _ => true⟩ (by decide)

/-- Claim C2 evaluated at its failing inputs (the claim is contradicted by
the code): when the first dial fails, the Executor's connections are nil
and the deferred Close calls panic, so Consume crashes the process instead
of continuing with a partially-populated connection set; and when an accept
fails on the Dispatcher side, each relay goroutine goes on to use the nil
connection it received and panics instead of ending early. -/
theorem dial_accept_failure_crashes :
    (Consume "echo" ⟨"", [], fun _ => false, .ok⟩
        (jsonMarshalCommand ⟨"echo", [], [], "o", "i", "e", "x"⟩)).panicked
      = true ∧
    copyRelayRun (some none) = .panicked ∧
    inRelayRun (some none) true [] = .panicked ∧
    inRelayRun (some none) false [] = .panicked ∧
    exitTaskRun (some none) = .panicked := by
  refine ⟨by decide, rfl, rfl, rfl, rfl⟩

/-- Claim C8 evaluated at its failing input (the accept-failure clause of
the claim is contradicted by the code): with an accept failure on the out
channel the relay goroutine panics on the nil connection, the process
crashes while Send is blocked in wg.Wait, and the deferred os.Remove
cleanup never executes, leaking the four rendezvous points. -/
theorem accept_failure_skips_cleanup :
    sendCleanup ⟨["cmdpipe", "echo"], "", "", "aaaaaa", "bbbbbb", "cccccc",
        "dddddd", fun _ => true⟩ (some none) (some (some []))
        (some (some ())) true [] (some (some "0")) = none ∧
    copyRelayRun (some none) = .panicked := by
  constructor
  · decide
  · rfl

/-- Claim C5: in every Send invocation all four rendezvous points are
created and listening before the Command Descriptor is constructed or
published; publication never precedes channel creation. -/
theorem channels_listen_before_publication (w : SendWorld) (j : Nat)
    (e : Ev) (p : String)
    (he : (sendEvents w).get? j = some e)
    (hpub : (∃ c, e = Ev.builtDescriptor c) ∨ (∃ c, e = Ev.published c))
    (hp : p ∈ sendSocketPaths w) :
    ∃ i, i < j ∧ (sendEvents w).get? i = some (.listened p) := by
  simp only [sendSocketPaths, List.mem_cons, List.not_mem_nil, or_false] at hp
  by_cases h1 : w.args.length ≤ 1
  · simp [sendEvents, sendMain, h1] at he
  by_cases hOut :
      w.listenOk (inTemp w.tmpDir (genCommandPipeSocket w.sufOut "out")) = true
  case neg =>
    have hse : sendEvents w
        = [.connOpened (pathJoin (getTemp w.tmpDir) "redis.sock"), .panicked] := by
      simp [sendEvents, sendMain, h1, hOut]
    rw [hse] at he
    rcases hpub with ⟨c0, rfl⟩ | ⟨c0, rfl⟩ <;>
      rcases j with _ | _ | j <;> simp [List.get?] at he
  by_cases hErr :
      w.listenOk (inTemp w.tmpDir (genCommandPipeSocket w.sufErr "err")) = true
  case neg =>
    have hse : sendEvents w
        = [.connOpened (pathJoin (getTemp w.tmpDir) "redis.sock"),
           .listened (inTemp w.tmpDir (genCommandPipeSocket w.sufOut "out")),
           .panicked] := by
      simp [sendEvents, sendMain, h1, hOut, hErr]
    rw [hse] at he
    rcases hpub with ⟨c0, rfl⟩ | ⟨c0, rfl⟩ <;>
      rcases j with _ | _ | _ | j <;> simp [List.get?] at he
  by_cases hIn :
      w.listenOk (inTemp w.tmpDir (genCommandPipeSocket w.sufIn "in")) = true
  case neg =>
    have hse : sendEvents w
        = [.connOpened (pathJoin (getTemp w.tmpDir) "redis.sock"),
           .listened (inTemp w.tmpDir (genCommandPipeSocket w.sufOut "out")),
           .listened (inTemp w.tmpDir (genCommandPipeSocket w.sufErr "err")),
           .panicked] := by
      simp [sendEvents, sendMain, h1, hOut, hErr, hIn]
    rw [hse] at he
    rcases hpub with ⟨c0, rfl⟩ | ⟨c0, rfl⟩ <;>
      rcases j with _ | _ | _ | _ | j <;> simp [List.get?] at he
  by_cases hExit :
      w.listenOk (inTemp w.tmpDir (genCommandPipeSocket w.sufExit "exit")) = true
  case neg =>
    have hse : sendEvents w
        = [.connOpened (pathJoin (getTemp w.tmpDir) "redis.sock"),
           .listened (inTemp w.tmpDir (genCommandPipeSocket w.sufOut "out")),
           .listened (inTemp w.tmpDir (genCommandPipeSocket w.sufErr "err")),
           .listened (inTemp w.tmpDir (genCommandPipeSocket w.sufIn "in")),
           .panicked] := by
      simp [sendEvents, sendMain, h1, hOut, hErr, hIn, hExit]
    rw [hse] at he
    rcases hpub with ⟨c0, rfl⟩ | ⟨c0, rfl⟩ <;>
      rcases j with _ | _ | _ | _ | _ | j <;> simp [List.get?] at he
  have hse : sendEvents w
      = [.connOpened (pathJoin (getTemp w.tmpDir) "redis.sock"),
         .listened (inTemp w.tmpDir (genCommandPipeSocket w.sufOut "out")),
         .listened (inTemp w.tmpDir (genCommandPipeSocket w.sufErr "err")),
         .listened (inTemp w.tmpDir (genCommandPipeSocket w.sufIn "in")),
         .listened (inTemp w.tmpDir (genCommandPipeSocket w.sufExit "exit")),
         .builtDescriptor (sendDescriptor w),
         .published (sendDescriptor w)] := by
    simp [sendEvents, sendMain, h1, hOut, hErr, hIn, hExit, sendDescriptor]
  rw [hse] at he ⊢
  rcases hpub with ⟨c0, rfl⟩ | ⟨c0, rfl⟩
  · rcases j with _ | _ | _ | _ | _ | _ | _ | j <;> simp [List.get?] at he
    rcases hp with rfl | rfl | rfl | rfl
    · exact ⟨1, by omega, by simp [List.get?]⟩
    · exact ⟨2, by omega, by simp [List.get?]⟩
    · exact ⟨3, by omega, by simp [List.get?]⟩
    · exact ⟨4, by omega, by simp [List.get?]⟩
  · rcases j with _ | _ | _ | _ | _ | _ | _ | j <;> simp [List.get?] at he
    rcases hp with rfl | rfl | rfl | rfl
    · exact ⟨1, by omega, by simp [List.get?]⟩
    · exact ⟨2, by omega, by simp [List.get?]⟩
    · exact ⟨3, by omega, by simp [List.get?]⟩
    · exact ⟨4, by omega, by simp [List.get?]⟩

/-- Witness for C5: in a concrete Send run the publication event at index 6
is preceded by the out listen event at a smaller index. -/
theorem channels_listen_before_publication_witness :
    ∃ i, i < 6 ∧
      (sendEvents ⟨["cmdpipe", "cat"], "", "", "aaaaaa", "bbbbbb", "cccccc",
          "dddddd", fun _ => true⟩).get? i
        = some (.listened "/tmp/cmdpipe-aaaaaa-out") :=
  channels_listen_before_publication
    ⟨["cmdpipe", "cat"], "", "", "aaaaaa", "bbbbbb", "cccccc", "dddddd",
      fun _ => true⟩ 6
    (.published ⟨"cat", [], [], "cmdpipe-aaaaaa-out", "cmdpipe-cccccc-in",
      "cmdpipe-bbbbbb-err", "cmdpipe-dddddd-exit"⟩)
    "/tmp/cmdpipe-aaaaaa-out"
    (by decide)
    (Or.inr ⟨_, rfl⟩)
    (by decide)

/-- Counterexample to claim C7 as stated: the published descriptor carries
the bare rendezvous names, not the filesystem paths joined under the base
directory; here the descriptor's out address is cmdpipe-aaaaaa-out while
the rendezvous point the Dispatcher listens on is /tmp/cmdpipe-aaaaaa-out,
and the two differ. -/
theorem descriptor_addresses_are_not_joined_paths :
    (sendMain ⟨["cmdpipe", "ls"], "", "", "aaaaaa", "bbbbbb", "cccccc",
        "dddddd", fun _ => true⟩).1
      = .publishedAwait ⟨"ls", [], [], "cmdpipe-aaaaaa-out",
          "cmdpipe-cccccc-in", "cmdpipe-bbbbbb-err", "cmdpipe-dddddd-exit"⟩ ∧
    Ev.listened "/tmp/cmdpipe-aaaaaa-out"
      ∈ sendEvents ⟨["cmdpipe", "ls"], "", "", "aaaaaa", "bbbbbb", "cccccc",
          "dddddd", fun _ => true⟩ ∧
    "cmdpipe-aaaaaa-out" ≠ "/tmp/cmdpipe-aaaaaa-out" := by
  refine ⟨by decide, by decide, by decide⟩

/-- Claim C7 (amended): every published descriptor carries the four
rendezvous names cmdpipe-(6-char random suffix)-(role) with role in out,
in, err, exit (so the names are 18, 17, 18 and 19 characters long); each
side forms the transport address by joining the name under its own
CMDPIPE_TMP_DIR base directory (default /tmp), so the addresses the
Executor dials equal the paths the Dispatcher listens on exactly when both
sides resolve the same base directory. -/
theorem rendezvous_naming_and_addresses (w : SendWorld) (cw : ConsumeWorld)
    (hargs : 2 ≤ w.args.length)
    (hlisten : ∀ q, w.listenOk q = true)
    (hdial : ∀ q, cw.dialOk q = true)
    (htmp : cw.tmpDir = w.tmpDir)
    (h6o : w.sufOut.length = 6) (h6e : w.sufErr.length = 6)
    (h6i : w.sufIn.length = 6) (h6x : w.sufExit.length = 6) :
    (sendMain w).1 = .publishedAwait (sendDescriptor w) ∧
    (sendDescriptor w).Out = "cmdpipe-" ++ w.sufOut ++ "-out" ∧
    (sendDescriptor w).In = "cmdpipe-" ++ w.sufIn ++ "-in" ∧
    (sendDescriptor w).Error = "cmdpipe-" ++ w.sufErr ++ "-err" ∧
    (sendDescriptor w).Exit = "cmdpipe-" ++ w.sufExit ++ "-exit" ∧
    (sendDescriptor w).Out.length = 18 ∧
    (sendDescriptor w).In.length = 17 ∧
    (sendDescriptor w).Error.length = 18 ∧
    (sendDescriptor w).Exit.length = 19 ∧
    Ev.listened (inTemp w.tmpDir (sendDescriptor w).Out) ∈ sendEvents w ∧
    Ev.listened (inTemp w.tmpDir (sendDescriptor w).Error) ∈ sendEvents w ∧
    Ev.listened (inTemp w.tmpDir (sendDescriptor w).In) ∈ sendEvents w ∧
    Ev.listened (inTemp w.tmpDir (sendDescriptor w).Exit) ∈ sendEvents w ∧
    dialAll cw (sendDescriptor w)
      = ⟨some (inTemp w.tmpDir (sendDescriptor w).Out),
         some (inTemp w.tmpDir (sendDescriptor w).In),
         some (inTemp w.tmpDir (sendDescriptor w).Error),
         some (inTemp w.tmpDir (sendDescriptor w).Exit)⟩ ∧
    (w.tmpDir = "" → inTemp w.tmpDir (sendDescriptor w).Out
      = "/tmp/" ++ (sendDescriptor w).Out) := by
  have hsm := sendMain_success w hargs hlisten
  have h8 : ("cmdpipe-" : String).length = 8 := rfl
  have hm : ("-" : String).length = 1 := rfl
  have hlen : ∀ suf role : String,
      ("cmdpipe-" ++ suf ++ "-" ++ role).length = 9 + suf.length + role.length := by
    intro suf role
    simp [String.length_append, h8, hm]
    omega
  have hgen : ∀ suf role tail : String, ("-" ++ role : String) = tail →
      genCommandPipeSocket suf role = "cmdpipe-" ++ suf ++ tail := by
    intro suf role tail htail
    rw [genCommandPipeSocket, String.append_assoc, htail]
  refine ⟨?_, ?_, ?_, ?_, ?_, ?_, ?_, ?_, ?_, ?_, ?_, ?_, ?_, ?_, ?_⟩
  · rw [hsm]
  · exact hgen w.sufOut "out" "-out" (by decide)
  · exact hgen w.sufIn "in" "-in" (by decide)
  · exact hgen w.sufErr "err" "-err" (by decide)
  · exact hgen w.sufExit "exit" "-exit" (by decide)
  · rw [show (sendDescriptor w).Out = genCommandPipeSocket w.sufOut "out" from rfl,
      genCommandPipeSocket, hlen, h6o]
    decide
  · rw [show (sendDescriptor w).In = genCommandPipeSocket w.sufIn "in" from rfl,
      genCommandPipeSocket, hlen, h6i]
    decide
  · rw [show (sendDescriptor w).Error = genCommandPipeSocket w.sufErr "err" from rfl,
      genCommandPipeSocket, hlen, h6e]
    decide
  · rw [show (sendDescriptor w).Exit = genCommandPipeSocket w.sufExit "exit" from rfl,
      genCommandPipeSocket, hlen, h6x]
    decide
  · rw [sendEvents, hsm]
    simp [sendDescriptor]
  · rw [sendEvents, hsm]
    simp [sendDescriptor]
  · rw [sendEvents, hsm]
    simp [sendDescriptor]
  · rw [sendEvents, hsm]
    simp [sendDescriptor]
  · rw [dialAll_all_ok cw (sendDescriptor w) hdial, htmp]
  · intro ht
    rw [ht]
    show pathJoin (getTemp "") (sendDescriptor w).Out = _
    rw [show getTemp "" = "/tmp" from rfl, pathJoin]
    exact congrArg (fun z => z ++ (sendDescriptor w).Out)
      (by decide : ("/tmp" ++ "/" : String) = "/tmp/")

/-- Witness for C7 (amended) at a concrete Dispatcher/Executor pair sharing
the default base directory, with 6-character suffixes. -/
theorem rendezvous_naming_and_addresses_witness :
    (sendMain ⟨["cmdpipe", "tr"], "", "", "suffa1", "suffb2", "suffc3",
        "suffd4", fun _ => true⟩).1
      = .publishedAwait (sendDescriptor ⟨["cmdpipe", "tr"], "", "", "suffa1",
          "suffb2", "suffc3", "suffd4", fun _ => true⟩) ∧
    (sendDescriptor ⟨["cmdpipe", "tr"], "", "", "suffa1", "suffb2", "suffc3",
        "suffd4", fun _ => true⟩).Out = "cmdpipe-" ++ "suffa1" ++ "-out" ∧
    (sendDescriptor ⟨["cmdpipe", "tr"], "", "", "suffa1", "suffb2", "suffc3",
        "suffd4", fun _ => true⟩).In = "cmdpipe-" ++ "suffc3" ++ "-in" ∧
    (sendDescriptor ⟨["cmdpipe", "tr"], "", "", "suffa1", "suffb2", "suffc3",
        "suffd4", fun _ => true⟩).Error = "cmdpipe-" ++ "suffb2" ++ "-err" ∧
    (sendDescriptor ⟨["cmdpipe", "tr"], "", "", "suffa1", "suffb2", "suffc3",
        "suffd4", fun _ => true⟩).Exit = "cmdpipe-" ++ "suffd4" ++ "-exit" ∧
    (sendDescriptor ⟨["cmdpipe", "tr"], "", "", "suffa1", "suffb2", "suffc3",
        "suffd4", fun _ => true⟩).Out.length = 18 ∧
    (sendDescriptor ⟨["cmdpipe", "tr"], "", "", "suffa1", "suffb2", "suffc3",
        "suffd4", fun _ => true⟩).In.length = 17 ∧
    (sendDescriptor ⟨["cmdpipe", "tr"], "", "", "suffa1", "suffb2", "suffc3",
        "suffd4", fun _ => true⟩).Error.length = 18 ∧
    (sendDescriptor ⟨["cmdpipe", "tr"], "", "", "suffa1", "suffb2", "suffc3",
        "suffd4", fun _ => true⟩).Exit.length = 19 ∧
    Ev.listened (inTemp "" (sendDescriptor ⟨["cmdpipe", "tr"], "", "",
        "suffa1", "suffb2", "suffc3", "suffd4", fun _ => true⟩).Out)
      ∈ sendEvents ⟨["cmdpipe", "tr"], "", "", "suffa1", "suffb2", "suffc3",
          "suffd4", fun _ => true⟩ ∧
    Ev.listened (inTemp "" (sendDescriptor ⟨["cmdpipe", "tr"], "", "",
        "suffa1", "suffb2", "suffc3", "suffd4", fun _ => true⟩).Error)
      ∈ sendEvents ⟨["cmdpipe", "tr"], "", "", "suffa1", "suffb2", "suffc3",
          "suffd4", fun _ => true⟩ ∧
    Ev.listened (inTemp "" (sendDescriptor ⟨["cmdpipe", "tr"], "", "",
        "suffa1", "suffb2", "suffc3", "suffd4", fun _ => true⟩).In)
      ∈ sendEvents ⟨["cmdpipe", "tr"], "", "", "suffa1", "suffb2", "suffc3",
          "suffd4", fun _ => true⟩ ∧
    Ev.listened (inTemp "" (sendDescriptor ⟨["cmdpipe", "tr"], "", "",
        "suffa1", "suffb2", "suffc3", "suffd4", fun _ => true⟩).Exit)
      ∈ sendEvents ⟨["cmdpipe", "tr"], "", "", "suffa1", "suffb2", "suffc3",
          "suffd4", fun _ => true⟩ ∧
    dialAll ⟨"", [], fun _ => true, .ok⟩
        (sendDescriptor ⟨["cmdpipe", "tr"], "", "", "suffa1", "suffb2",
          "suffc3", "suffd4", fun _ => true⟩)
      = ⟨some (inTemp "" (sendDescriptor ⟨["cmdpipe", "tr"], "", "", "suffa1",
            "suffb2", "suffc3", "suffd4", fun _ => true⟩).Out),
         some (inTemp "" (sendDescriptor ⟨["cmdpipe", "tr"], "", "", "suffa1",
            "suffb2", "suffc3", "suffd4", fun _ => true⟩).In),
         some (inTemp "" (sendDescriptor ⟨["cmdpipe", "tr"], "", "", "suffa1",
            "suffb2", "suffc3", "suffd4", fun _ => true⟩).Error),
         some (inTemp "" (sendDescriptor ⟨["cmdpipe", "tr"], "", "", "suffa1",
            "suffb2", "suffc3", "suffd4", fun _ => true⟩).Exit)⟩ ∧
    ((⟨["cmdpipe", "tr"], "", "", "suffa1", "suffb2", "suffc3", "suffd4",
        fun _ => true⟩ : SendWorld).tmpDir = "" →
      inTemp "" (sendDescriptor ⟨["cmdpipe", "tr"], "", "", "suffa1",
          "suffb2", "suffc3", "suffd4", fun _ => true⟩).Out
        = "/tmp/" ++ (sendDescriptor ⟨["cmdpipe", "tr"], "", "", "suffa1",
            "suffb2", "suffc3", "suffd4", fun _ => true⟩).Out) :=
  rendezvous_naming_and_addresses
    ⟨["cmdpipe", "tr"], "", "", "suffa1", "suffb2", "suffc3", "suffd4",
      fun _ => true⟩
    ⟨"", [], fun _ => true, .ok⟩
    (by decide) (fun _ => rfl) (fun _ => rfl) rfl rfl rfl rfl rfl

/-- Claim C9: a descriptor matching the allowed name runs the program with
environment equal to the Executor's own inherited environment with the
descriptor's env entries appended, so a key assigned in the descriptor's
env wins under standard last-wins lookup; and the env the Dispatcher
publishes is PropogateEnvironment, the semicolon-separated list from
CMDPIPE_ENV, empty when that variable is absent. -/
theorem executor_env_inherited_plus_descriptor (allowed : String)
    (cw : ConsumeWorld) (payload : Json) (c : Command) (w : SendWorld)
    (key entry : String)
    (hun : jsonUnmarshalCommand payload = some c)
    (hname : c.Name = allowed)
    (hdial : ∀ p, cw.dialOk p = true)
    (hargs : 2 ≤ w.args.length)
    (hlisten : ∀ q, w.listenOk q = true)
    (hentry : entry ∈ c.Env)
    (hkey : envEntryHasKey key entry = true) :
    (Consume allowed cw payload).started
      = some (allowed, c.Params, cw.environ ++ c.Env) ∧
    (sendMain w).1 = .publishedAwait (sendDescriptor w) ∧
    (sendDescriptor w).Env = PropogateEnvironment w.envList ∧
    (w.envList = "" → (sendDescriptor w).Env = []) ∧
    envValue (cw.environ ++ c.Env) key = envValue c.Env key ∧
    (envValue c.Env key).isSome = true := by
  have hfind : (c.Env.reverse.find? (fun s => envEntryHasKey key s)).isSome :=
    List.find?_isSome.mpr ⟨entry, List.mem_reverse.mpr hentry, hkey⟩
  obtain ⟨v, hv⟩ := Option.isSome_iff_exists.mp hfind
  refine ⟨?_, ?_, rfl, ?_, ?_, ?_⟩
  · rw [consume_match allowed cw payload c hun hname hdial]
  · rw [sendMain_success w hargs hlisten]
  · intro henv
    simp [sendDescriptor, PropogateEnvironment, henv]
  · simp only [envValue, List.reverse_append, List.find?_append, hv]
    rfl
  · simp [envValue, hv]

/-- Witness for C9: inherited environment assigning FOO=baz, descriptor env
assigning FOO=bar; the appended environment resolves FOO to bar. -/
theorem executor_env_inherited_plus_descriptor_witness :
    (Consume "pr" ⟨"", ["FOO=baz", "A=1"], fun _ => true, .ok⟩
        (jsonMarshalCommand ⟨"pr", [], ["FOO=bar"], "o9", "i9", "e9", "x9"⟩)).started
      = some ("pr", [], ["FOO=baz", "A=1"] ++ ["FOO=bar"]) ∧
    (sendMain ⟨["cmdpipe", "pr"], "", "FOO=bar", "qa", "qb", "qc", "qd",
        fun _ => true⟩).1
      = .publishedAwait (sendDescriptor ⟨["cmdpipe", "pr"], "", "FOO=bar",
          "qa", "qb", "qc", "qd", fun _ => true⟩) ∧
    (sendDescriptor ⟨["cmdpipe", "pr"], "", "FOO=bar", "qa", "qb", "qc",
        "qd", fun _ => true⟩).Env = PropogateEnvironment "FOO=bar" ∧
    (("FOO=bar" : String) = "" → (sendDescriptor ⟨["cmdpipe", "pr"], "",
        "FOO=bar", "qa", "qb", "qc", "qd", fun _ => true⟩).Env = []) ∧
    envValue (["FOO=baz", "A=1"] ++ ["FOO=bar"]) "FOO"
      = envValue ["FOO=bar"] "FOO" ∧
    (envValue ["FOO=bar"] "FOO").isSome = true :=
  executor_env_inherited_plus_descriptor "pr"
    ⟨"", ["FOO=baz", "A=1"], fun _ => true, .ok⟩
    (jsonMarshalCommand ⟨"pr", [], ["FOO=bar"], "o9", "i9", "e9", "x9"⟩)
    ⟨"pr", [], ["FOO=bar"], "o9", "i9", "e9", "x9"⟩
    ⟨["cmdpipe", "pr"], "", "FOO=bar", "qa", "qb", "qc", "qd", fun _ => true⟩
    "FOO" "FOO=bar"
    (jsonRoundTrip _) rfl (fun _ => rfl) (by decide) (fun _ => rfl)
    (by decide) (by decide)

end Cmdpipe
